import Mathlib

/-!
Shallow embedding of the ImportSDK CSV import pipeline (the `ImportSDK`
class of the repository's main SDK source file): the error-pattern
sampler, the delimiter detector, the CSV normalizer, the row pipeline
(filter / transform / validate), the batch dispatcher's result handling
and the session counters.  JavaScript dynamic values are modelled with
small inductive types mirroring the truthiness checks that the source
performs; machine floats used by delimiter scoring are modelled as
exact rationals; fallible plugin hooks are modelled as a sum of a
returned value and a thrown message.
-/

namespace ImportSDK

/-- Outcome of calling a JavaScript function that may throw:
either a returned value or a thrown error message. -/
inductive JsCall (α : Type) where
  | ret (v : α)
  | throws (msg : String)
deriving DecidableEq, Repr

/-- JavaScript `a || b` on an optional string, where the empty string
is falsy (`undefined`, `null` and `""` all fall through to `b`). -/
def strOr (a : Option String) (b : String) : String :=
  match a with
  | some s => if s = "" then b else s
  | none => b

/-! ## Error-pattern sampler (`sendErrorSample`)

State of `this.uniqueErrors` (a `Set` of keys) and
`this.errorPatternCounts` (a `Map` key → count).  The canonicalization
step `extractErrorPattern` builds the key `errorType + ":" + pattern`;
the sampler below receives that key, which is how the source consumes
it after extraction. -/

/-- Telemetry events emitted by `sendErrorSample` via `sendAuditLog`:
the full first-occurrence sample and the throttled repeat notice. -/
inductive TelemetryEvent where
  | firstOccurrence (key : String) (count : Nat)
  | patternRepeated (key : String) (count : Nat)
deriving DecidableEq, Repr

/-- Per-session sampler state: `uniqueErrors` set and
`errorPatternCounts` map. -/
structure SamplerState where
  uniqueErrors : List String
  errorPatternCounts : List (String × Nat)
deriving DecidableEq, Repr

/-- `Map.get(key) || 0` on the pattern-count map. -/
def getCount : List (String × Nat) → String → Nat
  | [], _ => 0
  | p :: rest, k => if p.1 = k then p.2 else getCount rest k

/-- `Map.set(key, v)`: replace the binding if present, else add it. -/
def setCount (m : List (String × Nat)) (k : String) (v : Nat) : List (String × Nat) :=
  match m with
  | [] => [(k, v)]
  | p :: rest => if p.1 = k then (k, v) :: rest else p :: setCount rest k v

/-- One call of `sendErrorSample` for an already-extracted error key:
reads the current count, stores `count + 1`, emits a full event on the
first occurrence of the key, and otherwise emits a throttled
`pattern repeated` event exactly when the pre-increment count is an
exact multiple of 10. -/
def sendErrorSample (st : SamplerState) (errorKey : String) :
    SamplerState × List TelemetryEvent :=
  let currentCount := getCount st.errorPatternCounts errorKey
  let counts := setCount st.errorPatternCounts errorKey (currentCount + 1)
  if errorKey ∈ st.uniqueErrors then
    if currentCount % 10 = 0 then
      (⟨st.uniqueErrors, counts⟩, [.patternRepeated errorKey currentCount])
    else
      (⟨st.uniqueErrors, counts⟩, [])
  else
    (⟨errorKey :: st.uniqueErrors, counts⟩, [.firstOccurrence errorKey 1])

/-- Run the sampler over a session's sequence of error keys,
accumulating the emitted events in order. -/
def samplerRun (st : SamplerState) : List String → SamplerState × List TelemetryEvent
  | [] => (st, [])
  | k :: rest =>
    let (st', evs) := sendErrorSample st k
    let (stFin, evsRest) := samplerRun st' rest
    (stFin, evs ++ evsRest)

/-- The sampler state at session start (both containers empty). -/
def samplerInit : SamplerState := ⟨[], []⟩

/-- Number of `firstOccurrence` events for a given key in an event list. -/
def countFirstEvents (k : String) (evs : List TelemetryEvent) : Nat :=
  (evs.filter (fun e => match e with
    | .firstOccurrence k' _ => k' = k
    | _ => false)).length

/-- Number of `patternRepeated` events for a given key in an event list. -/
def countRepeatEvents (k : String) (evs : List TelemetryEvent) : Nat :=
  (evs.filter (fun e => match e with
    | .patternRepeated k' _ => k' = k
    | _ => false)).length

theorem getCount_setCount_self (m : List (String × Nat)) (k : String) (v : Nat) :
    getCount (setCount m k v) k = v := by
  induction m with
  | nil => simp [setCount, getCount]
  | cons p rest ih =>
    by_cases hpk : p.1 = k
    · simp [setCount, getCount, hpk]
    · simp [setCount, getCount, hpk, ih]

theorem getCount_setCount_ne (m : List (String × Nat)) (k k' : String) (v : Nat)
    (h : k' ≠ k) :
    getCount (setCount m k v) k' = getCount m k' := by
  have hkk : ¬ (k = k') := fun hc => h hc.symm
  induction m with
  | nil =>
    simp only [setCount, getCount]
    rw [if_neg hkk]
  | cons p rest ih =>
    by_cases hpk : p.1 = k
    · simp only [setCount, hpk, if_true, getCount]
      rw [if_neg hkk, if_neg (hpk ▸ hkk)]
    · simp [setCount, getCount, hpk, ih]

theorem countFirstEvents_append (k : String) (a b : List TelemetryEvent) :
    countFirstEvents k (a ++ b) = countFirstEvents k a + countFirstEvents k b := by
  simp [countFirstEvents, List.filter_append]

theorem countRepeatEvents_append (k : String) (a b : List TelemetryEvent) :
    countRepeatEvents k (a ++ b) = countRepeatEvents k a + countRepeatEvents k b := by
  simp [countRepeatEvents, List.filter_append]

theorem sendErrorSample_state (st : SamplerState) (k : String) :
    (sendErrorSample st k).1.errorPatternCounts =
      setCount st.errorPatternCounts k (getCount st.errorPatternCounts k + 1) ∧
    (sendErrorSample st k).1.uniqueErrors =
      (if k ∈ st.uniqueErrors then st.uniqueErrors else k :: st.uniqueErrors) := by
  by_cases hmem : k ∈ st.uniqueErrors <;>
    by_cases hten : getCount st.errorPatternCounts k % 10 = 0 <;>
    simp [sendErrorSample, hmem, hten]

theorem sendErrorSample_events (st : SamplerState) (k : String) :
    (sendErrorSample st k).2 =
      if k ∈ st.uniqueErrors then
        (if getCount st.errorPatternCounts k % 10 = 0 then
          [TelemetryEvent.patternRepeated k (getCount st.errorPatternCounts k)]
        else [])
      else [TelemetryEvent.firstOccurrence k 1] := by
  by_cases hmem : k ∈ st.uniqueErrors <;>
    by_cases hten : getCount st.errorPatternCounts k % 10 = 0 <;>
    simp [sendErrorSample, hmem, hten]

/-- Invariant-carrying characterization of one sampler run: starting
from a state whose per-key counts are `cnt` and whose seen-set holds
exactly the keys with positive count, the run emits, for every key,
one first-occurrence event iff the key goes from unseen to seen, and
`D(total) - D(prior)` repeat events where `D n = (n - 1) / 10`;
moreover every repeat event carries a positive multiple of 10. -/
theorem samplerRun_spec (keys : List String) (st : SamplerState) (cnt : String → Nat)
    (hc : ∀ k, getCount st.errorPatternCounts k = cnt k)
    (hm : ∀ k, k ∈ st.uniqueErrors ↔ 1 ≤ cnt k) :
    ∀ k,
      countFirstEvents k (samplerRun st keys).2 =
        (if cnt k = 0 ∧ 1 ≤ keys.count k then 1 else 0) ∧
      countRepeatEvents k (samplerRun st keys).2 =
        (cnt k + keys.count k - 1) / 10 - (cnt k - 1) / 10 ∧
      (∀ c, TelemetryEvent.patternRepeated k c ∈ (samplerRun st keys).2 →
        c % 10 = 0 ∧ 1 ≤ c) := by
  induction keys generalizing st cnt with
  | nil =>
    intro k
    simp [samplerRun, countFirstEvents, countRepeatEvents]
  | cons h rest ih =>
    intro k
    have hrun : samplerRun st (h :: rest) =
        ((samplerRun (sendErrorSample st h).1 rest).1,
          (sendErrorSample st h).2 ++ (samplerRun (sendErrorSample st h).1 rest).2) := by
      simp [samplerRun]
    obtain ⟨hstC, hstU⟩ := sendErrorSample_state st h
    have hstep := ih (sendErrorSample st h).1 (fun k' => if k' = h then cnt k' + 1 else cnt k')
      (by
        intro k'
        rw [hstC]
        by_cases hk' : k' = h
        · subst hk'
          rw [getCount_setCount_self, hc]
          simp
        · rw [getCount_setCount_ne _ _ _ _ hk', hc]
          simp [hk'])
      (by
        intro k'
        rw [hstU]
        by_cases hk' : k' = h
        · subst hk'
          by_cases hmem : k' ∈ st.uniqueErrors
          · have := (hm k').mp hmem
            simp [hmem]
          · simp [hmem]
        · by_cases hmem : h ∈ st.uniqueErrors <;> simp [hmem, hm, hk'])
      k
    rcases hstep with ⟨hFirst, hRepeat, hMult⟩
    rw [hrun]
    by_cases hkh : k = h
    · subst hkh
      simp only [eq_self_iff_true, if_true] at hFirst hRepeat
      rw [sendErrorSample_events, hc]
      by_cases hz : cnt k = 0
      · have hnotmem : k ∉ st.uniqueErrors := by
          intro hmem
          have := (hm k).mp hmem
          omega
        simp only [hnotmem, if_false, if_neg hnotmem]
        refine ⟨?_, ?_, ?_⟩
        · rw [countFirstEvents_append, hFirst]
          simp [countFirstEvents, hz, List.count_cons_self]
        · rw [countRepeatEvents_append, hRepeat]
          have h0 : countRepeatEvents k [TelemetryEvent.firstOccurrence k 1] = 0 := by
            simp [countRepeatEvents]
          rw [h0, hz]
          simp only [List.count_cons_self]
          omega
        · intro c hcmem
          simp only [List.mem_append, List.mem_singleton] at hcmem
          rcases hcmem with hcm | hcm
          · cases hcm
          · exact hMult c hcm
      · have hmem : k ∈ st.uniqueErrors := (hm k).mpr (by omega)
        simp only [hmem, if_true, if_pos hmem]
        by_cases hten : cnt k % 10 = 0
        · simp only [hten, if_true, if_pos hten]
          refine ⟨?_, ?_, ?_⟩
          · rw [countFirstEvents_append, hFirst]
            simp [countFirstEvents, hz]
          · rw [countRepeatEvents_append, hRepeat]
            have h1 : countRepeatEvents k [TelemetryEvent.patternRepeated k (cnt k)] = 1 := by
              simp [countRepeatEvents]
            rw [h1]
            simp only [List.count_cons_self]
            omega
          · intro c hcmem
            simp only [List.mem_append, List.mem_singleton] at hcmem
            rcases hcmem with hcm | hcm
            · cases hcm
              exact ⟨hten, by omega⟩
            · exact hMult c hcm
        · simp only [hten, if_false, if_neg hten]
          refine ⟨?_, ?_, ?_⟩
          · rw [countFirstEvents_append, hFirst]
            simp [countFirstEvents, hz]
          · rw [countRepeatEvents_append, hRepeat]
            have h0 : countRepeatEvents k ([] : List TelemetryEvent) = 0 := by
              simp [countRepeatEvents]
            rw [h0]
            simp only [List.count_cons_self]
            omega
          · intro c hcmem
            simp only [List.mem_append, List.not_mem_nil, false_or] at hcmem
            exact hMult c hcmem
    · simp only [if_neg hkh] at hFirst hRepeat
      have hsym : ¬ (h = k) := fun hc' => hkh hc'.symm
      have hcount : (h :: rest).count k = rest.count k := by
        rw [List.count_cons]
        simp [hsym]
      have hstepF : countFirstEvents k (sendErrorSample st h).2 = 0 := by
        rw [sendErrorSample_events]
        by_cases hmem : h ∈ st.uniqueErrors <;>
          by_cases hten : getCount st.errorPatternCounts h % 10 = 0 <;>
          simp [hmem, hten, countFirstEvents, hsym]
      have hstepR : countRepeatEvents k (sendErrorSample st h).2 = 0 := by
        rw [sendErrorSample_events]
        by_cases hmem : h ∈ st.uniqueErrors <;>
          by_cases hten : getCount st.errorPatternCounts h % 10 = 0 <;>
          simp [hmem, hten, countRepeatEvents, hsym]
      refine ⟨?_, ?_, ?_⟩
      · rw [countFirstEvents_append, hstepF, hFirst, hcount]
        omega
      · rw [countRepeatEvents_append, hstepR, hRepeat, hcount]
        omega
      · intro c hcmem
        simp only [List.mem_append] at hcmem
        rcases hcmem with hcm | hcm
        · exfalso
          rw [sendErrorSample_events] at hcm
          by_cases hmem : h ∈ st.uniqueErrors <;>
            by_cases hten : getCount st.errorPatternCounts h % 10 = 0 <;>
            simp [hmem, hten] at hcm
          exact hkh hcm.1
        · exact hMult c hcm

/-- C2 counterexample: after exactly 10 occurrences of one key the
claim demands `floor(10/10) = 1` throttled `pattern repeated` events,
but the sampler has emitted none (the throttle tests the
pre-increment counter, so the first throttled event only fires at the
11th occurrence). -/
theorem C2_counterexample :
    countRepeatEvents "k" (samplerRun samplerInit (List.replicate 10 "k")).2 = 0 ∧
    (List.replicate 10 "k").count "k" / 10 = 1 := by
  constructor
  · decide
  · decide

/-- C2 (amended): for every session trace and every key, the sampler
emits exactly one full `first occurrence` event (iff the key occurs at
all), and after `n` total occurrences of the key it has emitted
exactly `floor((n-1)/10)` throttled `pattern repeated` events — a
throttled event being emitted exactly when the pre-increment per-key
occurrence counter is a positive exact multiple of 10 (i.e. at
occurrences 11, 21, 31, …). -/
theorem C2_sampler_events (keys : List String) (k : String) :
    countFirstEvents k (samplerRun samplerInit keys).2 = min (keys.count k) 1 ∧
    countRepeatEvents k (samplerRun samplerInit keys).2 = (keys.count k - 1) / 10 ∧
    (∀ c, TelemetryEvent.patternRepeated k c ∈ (samplerRun samplerInit keys).2 →
      c % 10 = 0 ∧ 1 ≤ c) := by
  have h := samplerRun_spec keys samplerInit (fun _ => 0)
    (fun _ => rfl) (by intro k'; simp [samplerInit]) k
  rcases h with ⟨h1, h2, h3⟩
  refine ⟨?_, ?_, h3⟩
  · rw [h1]
    split_ifs with hcond <;> omega
  · rw [h2]
    omega

/-! ## Delimiter detector (`detectDelimiter`)

Scores each candidate over the first 5 lines; float arithmetic of the
source (`avgCount` is a float division) is modelled exactly with
rationals. -/

/-- JavaScript `string.split(sep)` for a one-character separator,
over the character list: splitting the empty string gives `[""]`, a
trailing separator yields a trailing empty piece. -/
def splitOnChar (sep : Char) : List Char → List (List Char)
  | [] => [[]]
  | c :: rest =>
    let r := splitOnChar sep rest
    if c = sep then [] :: r
    else
      match r with
      | [] => [[c]]
      | h :: t => (c :: h) :: t

/-- One step of the per-line counting loop: a quote toggles the
in-quotes flag, the candidate character counts only outside quotes. -/
def delimCountStep (delim : Char) (st : Bool × Nat) (c : Char) : Bool × Nat :=
  if c = '"' then (!st.1, st.2)
  else if c = delim ∧ st.1 = false then (st.1, st.2 + 1)
  else st

/-- Occurrences of the candidate delimiter in one line, outside quoted
spans (quote state toggled on every `"`). -/
def lineDelimCount (delim : Char) (line : List Char) : Nat :=
  (line.foldl (delimCountStep delim) (false, 0)).2

/-- The candidate list `[',', ';', '\t', '|']` in source order. -/
def delimiterCandidates : List Char := [',', ';', '\t', '|']

/-- Score of one candidate: over the first 5 lines, keep the per-line
counts that are positive; if none remain the score is 0, otherwise
`average × consistency` with consistency 2 iff all kept counts are
equal to the first kept count. -/
def delimScore (content : String) (delim : Char) : ℚ :=
  let lines := (splitOnChar '\n' content.data).take 5
  let lineCounts := (lines.map (lineDelimCount delim)).filter (fun c => 0 < c)
  match lineCounts with
  | [] => 0
  | c0 :: _ =>
    let avgCount : ℚ := ((lineCounts.foldl (· + ·) 0 : ℕ) : ℚ) / (lineCounts.length : ℚ)
    let consistency : ℚ := if lineCounts.all (fun c => c = c0) then 2 else 1
    avgCount * consistency

/-- `Object.keys(scores).reduce((a, b) => scores[a] > scores[b] ? a : b, ',')`:
a running argmax with a strict comparison, so a tie is resolved in
favor of the later candidate. -/
def detectDelimiter (content : String) : Char :=
  delimiterCandidates.foldl
    (fun a b => if delimScore content a > delimScore content b then a else b) ','

/-- Position of a candidate in the source's candidate order
(comma, semicolon, tab, pipe). -/
def candIdx : Char → Nat
  | ',' => 0
  | ';' => 1
  | '\t' => 2
  | '|' => 3
  | _ => 4

/-- C4 counterexample: on content in which no candidate delimiter
occurs at all (the empty string) the claim demands comma, but the
strict running argmax resolves every comparison to the later
candidate and returns the pipe. -/
theorem C4_counterexample :
    detectDelimiter "" = '|' ∧ ('|' : Char) ≠ ',' := by
  constructor
  · decide
  · decide

/-- C4 (amended): delimiter detection scores each candidate in
{comma, semicolon, tab, pipe} over the first 5 lines as
`averageCount × consistencyFactor` (occurrences counted outside
quoted spans, zero-count lines discarded, consistency 2 iff all kept
counts are identical) and returns a candidate with the highest score;
a tie for the highest score — including total absence, where all
scores are zero — is resolved in favor of the candidate occurring
LAST in the order comma, semicolon, tab, pipe (so total absence
yields the pipe, not comma). -/
theorem C4_detect_highest_score (content : String) :
    detectDelimiter content ∈ delimiterCandidates ∧
    (∀ d ∈ delimiterCandidates,
      delimScore content d ≤ delimScore content (detectDelimiter content)) ∧
    (∀ d ∈ delimiterCandidates,
      delimScore content d = delimScore content (detectDelimiter content) →
      candIdx d ≤ candIdx (detectDelimiter content)) := by
  simp only [detectDelimiter, delimiterCandidates, List.foldl, ite_self]
  by_cases h12 : delimScore content ',' > delimScore content ';'
  · rw [if_pos h12]
    by_cases h13 : delimScore content ',' > delimScore content '\t'
    · rw [if_pos h13]
      by_cases h14 : delimScore content ',' > delimScore content '|'
      · rw [if_pos h14]
        refine ⟨by simp, ?_, ?_⟩
        · intro d hd
          simp only [List.mem_cons, List.not_mem_nil, or_false] at hd
          rcases hd with rfl | rfl | rfl | rfl
          · exact le_refl _
          · exact le_of_lt h12
          · exact le_of_lt h13
          · exact le_of_lt h14
        · intro d hd heq
          simp only [List.mem_cons, List.not_mem_nil, or_false] at hd
          rcases hd with rfl | rfl | rfl | rfl
          · exact le_refl _
          · exact absurd heq (ne_of_lt h12)
          · exact absurd heq (ne_of_lt h13)
          · exact absurd heq (ne_of_lt h14)
      · rw [if_neg h14]
        refine ⟨by simp, ?_, ?_⟩
        · intro d hd
          simp only [List.mem_cons, List.not_mem_nil, or_false] at hd
          have h14' := not_lt.mp h14
          rcases hd with rfl | rfl | rfl | rfl
          · exact h14'
          · exact le_trans (le_of_lt h12) h14'
          · exact le_trans (le_of_lt h13) h14'
          · exact le_refl _
        · intro d hd _
          simp only [List.mem_cons, List.not_mem_nil, or_false] at hd
          rcases hd with rfl | rfl | rfl | rfl <;> decide
    · rw [if_neg h13]
      by_cases h34 : delimScore content '\t' > delimScore content '|'
      · rw [if_pos h34]
        have h13' := not_lt.mp h13
        refine ⟨by simp, ?_, ?_⟩
        · intro d hd
          simp only [List.mem_cons, List.not_mem_nil, or_false] at hd
          rcases hd with rfl | rfl | rfl | rfl
          · exact h13'
          · exact le_trans (le_of_lt h12) h13'
          · exact le_refl _
          · exact le_of_lt h34
        · intro d hd heq
          simp only [List.mem_cons, List.not_mem_nil, or_false] at hd
          rcases hd with rfl | rfl | rfl | rfl
          · decide
          · decide
          · decide
          · exact absurd heq (ne_of_lt h34)
      · rw [if_neg h34]
        have h13' := not_lt.mp h13
        have h34' := not_lt.mp h34
        refine ⟨by simp, ?_, ?_⟩
        · intro d hd
          simp only [List.mem_cons, List.not_mem_nil, or_false] at hd
          rcases hd with rfl | rfl | rfl | rfl
          · exact le_trans h13' h34'
          · exact le_trans (le_of_lt h12) (le_trans h13' h34')
          · exact h34'
          · exact le_refl _
        · intro d hd _
          simp only [List.mem_cons, List.not_mem_nil, or_false] at hd
          rcases hd with rfl | rfl | rfl | rfl <;> decide
  · rw [if_neg h12]
    have h12' := not_lt.mp h12
    by_cases h23 : delimScore content ';' > delimScore content '\t'
    · rw [if_pos h23]
      by_cases h24 : delimScore content ';' > delimScore content '|'
      · rw [if_pos h24]
        refine ⟨by simp, ?_, ?_⟩
        · intro d hd
          simp only [List.mem_cons, List.not_mem_nil, or_false] at hd
          rcases hd with rfl | rfl | rfl | rfl
          · exact h12'
          · exact le_refl _
          · exact le_of_lt h23
          · exact le_of_lt h24
        · intro d hd heq
          simp only [List.mem_cons, List.not_mem_nil, or_false] at hd
          rcases hd with rfl | rfl | rfl | rfl
          · decide
          · decide
          · exact absurd heq (ne_of_lt h23)
          · exact absurd heq (ne_of_lt h24)
      · rw [if_neg h24]
        have h24' := not_lt.mp h24
        refine ⟨by simp, ?_, ?_⟩
        · intro d hd
          simp only [List.mem_cons, List.not_mem_nil, or_false] at hd
          rcases hd with rfl | rfl | rfl | rfl
          · exact le_trans h12' h24'
          · exact h24'
          · exact le_trans (le_of_lt h23) h24'
          · exact le_refl _
        · intro d hd _
          simp only [List.mem_cons, List.not_mem_nil, or_false] at hd
          rcases hd with rfl | rfl | rfl | rfl <;> decide
    · rw [if_neg h23]
      have h23' := not_lt.mp h23
      by_cases h34 : delimScore content '\t' > delimScore content '|'
      · rw [if_pos h34]
        refine ⟨by simp, ?_, ?_⟩
        · intro d hd
          simp only [List.mem_cons, List.not_mem_nil, or_false] at hd
          rcases hd with rfl | rfl | rfl | rfl
          · exact le_trans h12' h23'
          · exact h23'
          · exact le_refl _
          · exact le_of_lt h34
        · intro d hd heq
          simp only [List.mem_cons, List.not_mem_nil, or_false] at hd
          rcases hd with rfl | rfl | rfl | rfl
          · decide
          · decide
          · decide
          · exact absurd heq (ne_of_lt h34)
      · rw [if_neg h34]
        have h34' := not_lt.mp h34
        refine ⟨by simp, ?_, ?_⟩
        · intro d hd
          simp only [List.mem_cons, List.not_mem_nil, or_false] at hd
          rcases hd with rfl | rfl | rfl | rfl
          · exact le_trans h12' (le_trans h23' h34')
          · exact le_trans h23' h34'
          · exact h34'
          · exact le_refl _
        · intro d hd _
          simp only [List.mem_cons, List.not_mem_nil, or_false] at hd
          rcases hd with rfl | rfl | rfl | rfl <;> decide

/-! ## CSV normalizer (`normalizeCSV`)

The six passes of `normalizeCSV`, in source order: BOM trimming,
delimiter auto-detection, invisible/control-character removal,
line-ending normalization, empty-line stripping (header preserved),
header sanitization.  String surgery is carried out on the character
list. -/

/-- The whitespace class of JavaScript `trim()` and the regex `\s`. -/
def isJsWhitespace (c : Char) : Bool :=
  c = ' ' ∨ c = '\t' ∨ c = '\n' ∨ c = '\r' ∨
  c.toNat = 0x0B ∨ c.toNat = 0x0C ∨ c.toNat = 0xA0 ∨ c.toNat = 0x1680 ∨
  (0x2000 ≤ c.toNat ∧ c.toNat ≤ 0x200A) ∨
  c.toNat = 0x2028 ∨ c.toNat = 0x2029 ∨ c.toNat = 0x202F ∨
  c.toNat = 0x205F ∨ c.toNat = 0x3000 ∨ c.toNat = 0xFEFF

/-- JavaScript `string.trim()` on a character list. -/
def jsTrimChars (l : List Char) : List Char :=
  ((l.dropWhile isJsWhitespace).reverse.dropWhile isJsWhitespace).reverse

/-- JavaScript `string.trim()`. -/
def jsTrim (s : String) : String := ⟨jsTrimChars s.data⟩

/-- The recognized byte-order marks, in source order: U+FEFF, U+FFFE,
U+0000 U+FEFF, and the JavaScript literal for a byte-wise UTF-8 BOM,
which parses as the 3-character string U+EFBB `B` `F`. -/
def bomPatterns : List String := ["\uFEFF", "\uFFFE", "\u0000\uFEFF", "\uEFBBBF"]

/-- Pass 1: strip the first recognized BOM prefix (the loop breaks at
the first match) and report its length. -/
def trimBOMPass (content : String) : String × List String :=
  match bomPatterns.find? (fun bom => bom.data.isPrefixOf content.data) with
  | some bom =>
    (⟨content.data.drop bom.length⟩,
      ["Removed " ++ toString bom.length ++ "-byte BOM"])
  | none => (content, [])

/-- The zero-width / invisible class: U+200B..U+200D, U+FEFF, U+00A0, U+2060, U+180E (removed entirely). -/
def isZeroWidthJunk (c : Char) : Bool :=
  (0x200B ≤ c.toNat ∧ c.toNat ≤ 0x200D) ∨ c.toNat = 0xFEFF ∨
  c.toNat = 0xA0 ∨ c.toNat = 0x2060 ∨ c.toNat = 0x180E

/-- The control class `[\u0000-\u0008\u000B\u000C\u000E-\u001F\u007F]`
(controls except tab, newline, carriage return). -/
def isControlJunk (c : Char) : Bool :=
  c.toNat ≤ 0x08 ∨ c.toNat = 0x0B ∨ c.toNat = 0x0C ∨
  (0x0E ≤ c.toNat ∧ c.toNat ≤ 0x1F) ∨ c.toNat = 0x7F

/-- The Unicode-space class: U+2000..U+200A, U+202F, U+205F, U+3000
(collapsed to an ASCII space). -/
def isUnicodeSpace (c : Char) : Bool :=
  (0x2000 ≤ c.toNat ∧ c.toNat ≤ 0x200A) ∨ c.toNat = 0x202F ∨
  c.toNat = 0x205F ∨ c.toNat = 0x3000

/-- The three character-level replacements of the junk-removal pass,
in source order: drop zero-width characters, drop control characters,
map Unicode space variants to an ASCII space. -/
def junkCleaned (content : String) : String :=
  ⟨((content.data.filter (fun c => !(isZeroWidthJunk c))).filter
      (fun c => !(isControlJunk c))).map
    (fun c => if isUnicodeSpace c then ' ' else c)⟩

/-- Pass 3: remove zero-width characters, remove control characters,
map Unicode space variants to an ASCII space; the issue is logged iff
the length changed. -/
def removeUnicodeJunkPass (content : String) : String × List String :=
  let result := junkCleaned content
  if result.length ≠ content.length then
    (result, ["Removed " ++ toString (content.length - result.length) ++
      " invisible/control characters"])
  else (result, [])

/-- `content.replace(/\r\n/g, '\n')`: left-to-right, non-overlapping. -/
def crlfToLf : List Char → List Char
  | '\r' :: '\n' :: rest => '\n' :: crlfToLf rest
  | c :: rest => c :: crlfToLf rest
  | [] => []

/-- The replacement chain of the line-ending pass: CRLF → LF, then
every remaining lone CR → LF. -/
def lfNormalized (content : String) : String :=
  ⟨(crlfToLf content.data).map (fun c => if c = '\r' then '\n' else c)⟩

/-- Pass 4: CRLF → LF, then lone CR → LF; the issue is logged iff the
length changed (a lone CR rewritten in place keeps the length). -/
def normalizeLineEndingsPass (content : String) : String × List String :=
  let result := lfNormalized content
  if result.length ≠ content.length then
    (result, ["Normalized line endings to LF"])
  else (result, [])

/-- `pieces.join(sep)` on character lists. -/
def intercalateChar (sep : Char) : List (List Char) → List Char
  | [] => []
  | [x] => x
  | x :: xs => x ++ sep :: intercalateChar sep xs

/-- The lines the empty-line pass keeps: the first line always, and
every later line whose trimmed form is non-empty. -/
def stripKeptLines (content : String) : List (List Char) :=
  ((splitOnChar '\n' content.data).enum.filter
    (fun p => p.1 = 0 ∨ 0 < (jsTrimChars p.2).length)).map (fun p => p.2)

/-- Pass 5: drop every line after the first whose trimmed form is
empty; the issue is logged iff the line count dropped. -/
def stripEmptyLinesPass (content : String) : String × List String :=
  let lines := splitOnChar '\n' content.data
  let filteredLines := stripKeptLines content
  let issues :=
    if filteredLines.length ≠ lines.length then
      ["Removed " ++ toString (lines.length - filteredLines.length) ++
        " empty lines"]
    else []
  (⟨intercalateChar '\n' filteredLines⟩, issues)

/-- `parseCSVRow`'s scanning loop: a quote toggles the quote state, a
doubled quote inside a quoted span is an escaped literal quote, the
delimiter outside quotes ends the current cell. -/
def parseCSVRowAux (delim : Char) : List Char → Bool → String → List String
  | [], _, current => [current]
  | c :: rest, inQuotes, current =>
    if c = '"' then
      if inQuotes ∧ rest.head? = some '"' then
        parseCSVRowAux delim rest.tail inQuotes (current.push '"')
      else if inQuotes then parseCSVRowAux delim rest false current
      else parseCSVRowAux delim rest true current
    else if c = delim ∧ inQuotes = false then
      current :: parseCSVRowAux delim rest inQuotes ""
    else parseCSVRowAux delim rest inQuotes (current.push c)
termination_by l _ _ => l.length
decreasing_by
  all_goals (simp only [List.length_cons, List.length_tail]; omega)

/-- Parse a single CSV row respecting quotes and the delimiter. -/
def parseCSVRow (row : List Char) (delim : Char) : List String :=
  parseCSVRowAux delim row false ""

/-- `replace(/\s+/g, ' ')`: every maximal whitespace run becomes one
ASCII space. -/
def collapseWs : List Char → List Char
  | [] => []
  | c :: rest =>
    if isJsWhitespace c then
      ' ' :: collapseWs (rest.dropWhile (fun x => isJsWhitespace x))
    else c :: collapseWs rest
termination_by l => l.length
decreasing_by
  · simp only [List.length_cons]
    have := List.Sublist.length_le
      (List.dropWhile_sublist (l := rest) (fun x => isJsWhitespace x))
    omega
  · simp

/-- Sanitize one header cell: trim, unwrap a fully-quoted cell,
replace newlines/tabs by spaces, collapse whitespace runs, trim. -/
def sanitizeHeaderCell (cell : String) : String :=
  let s1 := jsTrimChars cell.data
  let s2 :=
    if (s1.head? = some '"' ∧ s1.getLast? = some '"') ∨
       (s1.head? = some '\'' ∧ s1.getLast? = some '\'') then
      (s1.drop 1).dropLast
    else s1
  let s3 := s2.map (fun c => if c = '\n' ∨ c = '\r' ∨ c = '\t' then ' ' else c)
  let s4 := collapseWs s3
  ⟨jsTrimChars s4⟩

/-- Re-quote a sanitized header cell iff it contains the delimiter, a
quote, or a newline; internal quotes are doubled. -/
def requoteHeaderCell (delim : Char) (cell : String) : List Char :=
  if cell.data.contains delim ∨ cell.data.contains '"' ∨ cell.data.contains '\n' then
    '"' :: (cell.data.flatMap (fun c => if c = '"' then ['"', '"'] else [c])) ++ ['"']
  else cell.data

/-- The sanitized form of the header line: parse with the detected
delimiter, sanitize each cell, re-join with minimal re-quoting. -/
def sanitizeHeaderLine (delim : Char) (line : List Char) : List Char :=
  intercalateChar delim
    (((parseCSVRow line delim).map sanitizeHeaderCell).map (requoteHeaderCell delim))

/-- Pass 6: rebuild the first line if sanitization changed it; the
issue is logged iff the header line changed. -/
def sanitizeHeadersPass (delim : Char) (content : String) : String × List String :=
  match splitOnChar '\n' content.data with
  | [] => (content, [])
  | originalHeader :: restLines =>
    let sanitizedHeader := sanitizeHeaderLine delim originalHeader
    if sanitizedHeader ≠ originalHeader then
      (⟨intercalateChar '\n' (sanitizedHeader :: restLines)⟩, ["Sanitized header row"])
    else (content, [])

/-- The toggles of `config.csvNormalization`. -/
structure CsvNormConfig where
  enabled : Bool
  trimBOM : Bool
  autoDetectDelimiter : Bool
  removeUnicodeJunk : Bool
  normalizeLineEndings : Bool
  stripEmptyLines : Bool
  sanitizeHeaders : Bool
deriving DecidableEq, Repr

/-- The `{ content, delimiter, issues }` record `normalizeCSV` returns. -/
structure NormalizeResult where
  content : String
  delimiter : Char
  issues : List String
deriving DecidableEq, Repr

/-- `normalizeCSV`: the passes in source order — BOM trimming,
delimiter auto-detection (an issue only when the detected delimiter
is not a comma), invisible/control removal, line-ending
normalization, empty-line stripping, header sanitization — each
toggled by its flag, issues accumulated in that order. -/
def normalizeCSV (config : CsvNormConfig) (csvContent : String) : NormalizeResult :=
  if config.enabled = false then ⟨csvContent, ',', []⟩ else
  let p1 := if config.trimBOM ∧ 0 < csvContent.length then trimBOMPass csvContent
            else (csvContent, [])
  let detectedDelimiter := if config.autoDetectDelimiter then detectDelimiter p1.1 else ','
  let i2 : List String :=
    if config.autoDetectDelimiter ∧ detectedDelimiter ≠ ',' then
      ["Auto-detected delimiter: '" ++ String.singleton detectedDelimiter ++ "'"]
    else []
  let p3 := if config.removeUnicodeJunk then removeUnicodeJunkPass p1.1 else (p1.1, [])
  let p4 := if config.normalizeLineEndings then normalizeLineEndingsPass p3.1 else (p3.1, [])
  let p5 := if config.stripEmptyLines then stripEmptyLinesPass p4.1 else (p4.1, [])
  let p6 := if config.sanitizeHeaders then sanitizeHeadersPass detectedDelimiter p5.1
            else (p5.1, [])
  ⟨p6.1, detectedDelimiter, p1.2 ++ i2 ++ p3.2 ++ p4.2 ++ p5.2 ++ p6.2⟩

/-- C5 counterexample: with only the line-ending pass enabled, the
input `"a\rb"` is changed to `"a\nb"` by an applied pass, yet the
issues list stays empty — the pass logs only on a length change, and
a lone CR rewritten to LF preserves the length.  (The claim demands
one issue entry from every applied pass that changes the content.) -/
theorem C5_counterexample :
    (normalizeCSV ⟨true, false, false, false, true, false, false⟩ "a\rb").content = "a\nb" ∧
    ("a\nb" : String) ≠ "a\rb" ∧
    (normalizeCSV ⟨true, false, false, false, true, false, false⟩ "a\rb").issues = [] := by
  refine ⟨by decide, by decide, by decide⟩

/-- C5 (amended): the normalizer applies its passes in the order
byte-order-mark removal, delimiter auto-detection, invisible/control
character removal, line-ending normalization, empty-line stripping
(header preserved), header sanitization; the BOM pass appends exactly
one issue iff it changes the content, the delimiter pass iff the
detected delimiter is not a comma, the invisible-character and
line-ending passes iff they change the content's *length* (a
length-preserving change appends none), the empty-line pass iff some
non-header line trims to empty, and the header pass iff sanitization
changes the first line. -/
theorem C5_normalizer_passes :
    (∀ config : CsvNormConfig, ∀ content : String,
      normalizeCSV config content =
        if config.enabled = false then ⟨content, ',', []⟩ else
        let p1 := if config.trimBOM ∧ 0 < content.length then trimBOMPass content
                  else (content, [])
        let d := if config.autoDetectDelimiter then detectDelimiter p1.1 else ','
        let i2 : List String :=
          if config.autoDetectDelimiter ∧ d ≠ ',' then
            ["Auto-detected delimiter: '" ++ String.singleton d ++ "'"]
          else []
        let p3 := if config.removeUnicodeJunk then removeUnicodeJunkPass p1.1 else (p1.1, [])
        let p4 := if config.normalizeLineEndings then normalizeLineEndingsPass p3.1
                  else (p3.1, [])
        let p5 := if config.stripEmptyLines then stripEmptyLinesPass p4.1 else (p4.1, [])
        let p6 := if config.sanitizeHeaders then sanitizeHeadersPass d p5.1 else (p5.1, [])
        ⟨p6.1, d, p1.2 ++ i2 ++ p3.2 ++ p4.2 ++ p5.2 ++ p6.2⟩) ∧
    (∀ c : String, (trimBOMPass c).2.length = if (trimBOMPass c).1 = c then 0 else 1) ∧
    (∀ c : String, (removeUnicodeJunkPass c).2.length =
      if (removeUnicodeJunkPass c).1.length = c.length then 0 else 1) ∧
    (∀ c : String, (normalizeLineEndingsPass c).2.length =
      if (normalizeLineEndingsPass c).1.length = c.length then 0 else 1) ∧
    (∀ c : String, (stripEmptyLinesPass c).2.length =
      if ∀ p ∈ (splitOnChar '\n' c.data).enum, p.1 = 0 ∨ 0 < (jsTrimChars p.2).length
      then 0 else 1) ∧
    (∀ d : Char, ∀ c : String, (sanitizeHeadersPass d c).2.length =
      if sanitizeHeaderLine d ((splitOnChar '\n' c.data).headD []) =
         (splitOnChar '\n' c.data).headD [] then 0 else 1) := by
  refine ⟨fun _ _ => rfl, ?_, ?_, ?_, ?_, ?_⟩
  · -- BOM pass: one issue iff the content changed
    intro c
    unfold trimBOMPass
    cases hf : bomPatterns.find? (fun bom => bom.data.isPrefixOf c.data) with
    | none => simp
    | some bom =>
      have hmem := List.mem_of_find?_eq_some hf
      have hpred := List.find?_some hf
      have hpre : bom.data <+: c.data := by
        rwa [List.isPrefixOf_iff_prefix] at hpred
      have hlenle : bom.data.length ≤ c.data.length := hpre.length_le
      have hpos : 1 ≤ bom.length := by
        simp only [bomPatterns, List.mem_cons, List.not_mem_nil, or_false] at hmem
        rcases hmem with rfl | rfl | rfl | rfl <;> decide
      have hne : (⟨c.data.drop bom.length⟩ : String) ≠ c := by
        intro heq
        have hdata : c.data.drop bom.length = c.data := congrArg String.data heq
        have hlen := congrArg List.length hdata
        rw [List.length_drop] at hlen
        have : bom.length = bom.data.length := rfl
        omega
      simp [hne]
  · -- junk pass: one issue iff the length changed
    intro c
    by_cases hlen : (junkCleaned c).length = c.length <;>
      simp [removeUnicodeJunkPass, hlen]
  · -- line-ending pass: one issue iff the length changed
    intro c
    by_cases hlen : (lfNormalized c).length = c.length <;>
      simp [normalizeLineEndingsPass, hlen]
  · -- empty-line pass: one issue iff some non-header line trims empty
    intro c
    by_cases hall :
        ∀ p ∈ (splitOnChar '\n' c.data).enum, p.1 = 0 ∨ 0 < (jsTrimChars p.2).length
    · have hkeep : (stripKeptLines c).length = (splitOnChar '\n' c.data).length := by
        unfold stripKeptLines
        rw [List.length_map, List.filter_length_eq_length.mpr ?_, List.enum_length]
        intro a ha
        simpa using hall a ha
      rw [if_pos hall]
      simp [stripEmptyLinesPass, hkeep]
    · have hlt : (stripKeptLines c).length ≠ (splitOnChar '\n' c.data).length := by
        unfold stripKeptLines
        rw [List.length_map]
        intro heq
        rw [← List.enum_length (l := splitOnChar '\n' c.data)] at heq
        have := List.filter_length_eq_length.mp heq
        apply hall
        intro a ha
        simpa using this a ha
      rw [if_neg hall]
      simp [stripEmptyLinesPass, hlt]
  · -- header pass: one issue iff the first line changed
    intro d c
    unfold sanitizeHeadersPass
    cases hsp : splitOnChar '\n' c.data with
    | nil =>
      have : sanitizeHeaderLine d ([] : List Char) = [] := by
        simp [sanitizeHeaderLine, parseCSVRow, parseCSVRowAux, sanitizeHeaderCell,
          jsTrimChars, collapseWs, requoteHeaderCell, intercalateChar]
      simp [this]
    | cons hd tl =>
      by_cases hh : sanitizeHeaderLine d hd = hd <;> simp [hh]

/-! ## Row pipeline (`filterRow`, `transformRow`, `validateRow`)

Records are association lists in JavaScript object-enumeration order;
cell values are the strings the CSV parser delivers.  Plugin hook
results are modelled with small inductives carrying exactly the
truthiness distinctions the source tests (`result && !result.passed`,
`typeof result === 'boolean'`, …). -/

/-- A cell value (the parser is configured with `dynamicTyping: false`,
so values are strings). -/
abbrev Value := String

/-- A record: source field name → value, in enumeration order. -/
abbrev Row := List (String × Value)

/-- `obj[key]` — the first binding, `undefined` when absent. -/
def jsGet {α : Type} : List (String × α) → String → Option α
  | [], _ => none
  | p :: rest, k => if p.1 = k then some p.2 else jsGet rest k

/-- `obj[key] = v` — update the binding in place, else append. -/
def jsSet {α : Type} (m : List (String × α)) (k : String) (v : α) : List (String × α) :=
  match m with
  | [] => [(k, v)]
  | p :: rest => if p.1 = k then (k, v) :: rest else p :: jsSet rest k v

/-- String interpolation of a possibly-undefined value
(JavaScript renders `undefined` as the word). -/
def jsShowValue (v : Option Value) : String :=
  match v with
  | some s => s
  | none => "undefined"

/-- `pieces.join(sep)` on strings. -/
def joinStrings (sep : String) : List String → String
  | [] => ""
  | [x] => x
  | x :: xs => x ++ sep ++ joinStrings sep xs

/-- What a filter hook returns: an object `{passed, reason}`, a bare
boolean, or a falsy non-result (`null`/`undefined`). -/
inductive FilterRes where
  | objR (passed : Bool) (reason : Option String)
  | boolR (b : Bool)
  | nullR
deriving DecidableEq, Repr

/-- What a validate hook (or the global validator function) returns:
an object `{isValid, error, errors}`, a bare boolean, or a falsy
non-result. -/
inductive ValidateRes where
  | objR (isValid : Bool) (error : Option String) (errors : Option (List String))
  | boolR (b : Bool)
  | nullR
deriving DecidableEq, Repr

/-- A row-capability plugin: optional `filter`, `transform` and
`validate` hooks (each receives the row; `transform` receives the
working transformed row and the original row). -/
structure RowPlugin where
  name : String
  filter : Option (Row → JsCall FilterRes)
  transform : Option (Row → Row → JsCall (Option Row))
  validate : Option (Row → JsCall ValidateRes)

/-- A field-capability plugin: optional per-field `transform` and
`validate` hooks (receiving value, mapped field name and the row). -/
structure FieldPlugin where
  name : String
  transform : Option (Value → String → Row → JsCall Value)
  validate : Option (Value → String → Row → JsCall ValidateRes)

/-- A batch-result error entry `{message, data}` (`data` is an opaque
payload, `none` for the synthetic `data: null`). -/
structure BatchError where
  message : String
  data : Option String
deriving DecidableEq, Repr

/-- One field rule of an object-style validator: a bare
`[predicate, message]` pair or a list of such pairs (normalized to a
list before evaluation); predicates receive `row[field]` and the row. -/
inductive FieldRuleDef where
  | single (p : Option Value → Row → Bool) (msg : Option String)
  | multiple (rules : List ((Option Value → Row → Bool) × Option String))

/-- Normalization `Array.isArray(validationDef[0]) ? validationDef : [validationDef]`. -/
def FieldRuleDef.toRules : FieldRuleDef → List ((Option Value → Row → Bool) × Option String)
  | .single p msg => [(p, msg)]
  | .multiple rules => rules

/-- The global validator: a single function returning a
`ValidateRes`, or an object mapping field names to rules. -/
inductive GlobalValidator where
  | vfun (f : Row → JsCall ValidateRes)
  | vobj (fields : List (String × FieldRuleDef))

/-- The field mapping / transformers / validator triple of the active
mapping. -/
structure ActiveMapping where
  fieldMapping : List (String × String)
  transformers : List (String × (Value → Value))
  validate : Option GlobalValidator

/-- The slice of the SDK configuration the row pipeline and session
counting consume. -/
structure SDKConfig where
  filters : List (String × (Option Value → Bool))
  collectAllErrors : Bool
  validate : Option GlobalValidator
  requiredColumns : List String
  allowedColumns : List String
  mapping : ActiveMapping
  fieldPlugins : List FieldPlugin
  rowPlugins : List RowPlugin

/-- `{ passed, reason }` as `filterRow` returns it. -/
structure FilterOutcome where
  passed : Bool
  reason : Option String
deriving DecidableEq, Repr

/-- The first veto of the built-in filters: each configured
`(field, predicate)` is tested on `row[field]`; the first predicate
returning false short-circuits with reason `field=value`. -/
def builtinFilterVeto (filters : List (String × (Option Value → Bool))) (row : Row) :
    Option FilterOutcome :=
  filters.findSome? (fun fp =>
    if fp.2 (jsGet row fp.1) then none
    else some ⟨false, some (fp.1 ++ "=" ++ jsShowValue (jsGet row fp.1))⟩)

/-- Outcome of one plugin filter invocation.  A thrown fault vetoes
(fail-closed) with reason `Plugin filter error: …`.  A returned
object with falsy `passed` vetoes with its reason (or the default).
A bare boolean vetoes either way: `true` is truthy with `passed`
undefined, so `result && !result.passed` holds; `false` is caught by
the boolean-compatibility test. -/
def pluginFilterVeto (name : String) (res : JsCall FilterRes) : Option FilterOutcome :=
  match res with
  | .throws m => some ⟨false, some ("Plugin filter error: " ++ m)⟩
  | .ret (.objR passed reason) =>
    if passed = false then
      some ⟨false, some (strOr reason ("Plugin '" ++ name ++ "' filtered row"))⟩
    else none
  | .ret (.boolR _) => some ⟨false, some ("Plugin '" ++ name ++ "' filtered row")⟩
  | .ret .nullR => none

/-- `filterRow`: built-in filters first (conjunction,
short-circuiting), then the row plugins' filter hooks in registration
order. -/
def filterRow (cfg : SDKConfig) (row : Row) : FilterOutcome :=
  match builtinFilterVeto cfg.filters row with
  | some veto => veto
  | none =>
    match cfg.rowPlugins.findSome? (fun p =>
      p.filter.bind (fun f => pluginFilterVeto p.name (f row))) with
    | some veto => veto
    | none => ⟨true, none⟩

/-- `error || (errors && errors.join('; ')) || default` with
JavaScript falsiness (empty string and empty join fall through). -/
def strOr3 (e : Option String) (errs : Option (List String)) (d : String) : String :=
  strOr e (match errs with
    | some l => strOr (some (joinStrings "; " l)) d
    | none => d)

/-- Failure message of the global function validator's result:
`result && !result.isValid` selects failures; a bare `true` is truthy
with `isValid` undefined (fails with the default message); a bare
`false` is falsy (passes); the `errors` list is never consulted
here. -/
def globalFnFailure (res : ValidateRes) : Option String :=
  match res with
  | .objR isValid error _ =>
    if isValid = false then some (strOr error "Validation failed") else none
  | .boolR b => if b then some "Validation failed" else none
  | .nullR => none

/-- Failure message of one field-plugin validation: both bare
booleans fail (truthy `true` via the object test, `false` via the
boolean-compatibility test), each with the default message. -/
def fieldPluginFailure (name field : String) (res : ValidateRes) : Option String :=
  let d := "Plugin '" ++ name ++ "' validation failed for " ++ field
  match res with
  | .objR isValid error _ => if isValid = false then some (strOr error d) else none
  | .boolR _ => some d
  | .nullR => none

/-- Failure message of one row-plugin validation; here a failing
object's `errors` list is joined with `; ` as a message fallback. -/
def rowPluginFailure (name : String) (res : ValidateRes) : Option String :=
  let d := "Plugin '" ++ name ++ "' row validation failed"
  match res with
  | .objR isValid error errors =>
    if isValid = false then some (strOr3 error errors d) else none
  | .boolR _ => some d
  | .nullR => none

/-- `validator = activeMapping.validate; if (!validator && config.validate) …`. -/
def resolveValidator (cfg : SDKConfig) : Option GlobalValidator :=
  match cfg.mapping.validate with
  | some v => some v
  | none => cfg.validate

/-- Checks 1–2 of `validateRow`: the global validator (function-style
in a try/catch, or object-style field rules), as the ordered list of
per-check outcomes (`none` = pass, `some msg` = failure message). -/
def globalValidatorChecks (v : Option GlobalValidator) (row : Row) : List (Option String) :=
  match v with
  | none => []
  | some (.vfun f) =>
    match f row with
    | .throws m => [some ("Validator error: " ++ m)]
    | .ret res => [globalFnFailure res]
  | some (.vobj fields) =>
    fields.flatMap (fun fd =>
      fd.2.toRules.map (fun rule =>
        if rule.1 (jsGet row fd.1) row = false then
          some (strOr rule.2 ("Invalid " ++ fd.1))
        else none))

/-- Check 3 of `validateRow`: every field plugin's validate hook over
every field of the row, in order, each in a try/catch. -/
def fieldPluginChecks (plugins : List FieldPlugin) (row : Row) : List (Option String) :=
  plugins.flatMap (fun p =>
    match p.validate with
    | none => []
    | some v =>
      row.map (fun fv =>
        match v fv.2 fv.1 row with
        | .throws m => some ("Plugin validation error: " ++ m)
        | .ret res => fieldPluginFailure p.name fv.1 res))

/-- Check 4 of `validateRow`: every row plugin's validate hook, in a
try/catch. -/
def rowPluginChecks (plugins : List RowPlugin) (row : Row) : List (Option String) :=
  plugins.flatMap (fun p =>
    match p.validate with
    | none => []
    | some v =>
      [match v row with
       | .throws m => some ("Plugin validation error: " ++ m)
       | .ret res => rowPluginFailure p.name res])

/-- The ordered check sequence of `validateRow`. -/
def allChecks (cfg : SDKConfig) (row : Row) : List (Option String) :=
  globalValidatorChecks (resolveValidator cfg) row ++
  fieldPluginChecks cfg.fieldPlugins row ++
  rowPluginChecks cfg.rowPlugins row

/-- The `{ isValid, error, errors? }` record `validateRow` returns. -/
structure ValidationResult where
  isValid : Bool
  error : Option String
  errors : Option (List String)
deriving DecidableEq, Repr

/-- Walk the check sequence: in stop-at-first mode the first failure
returns immediately with its message; in collect-all mode failures
accumulate and a non-empty list yields the messages joined by
`" | "` plus the individual list. -/
def runChecks (collectAll : Bool) : List (Option String) → List String → ValidationResult
  | [], acc =>
    if acc.isEmpty then ⟨true, none, none⟩
    else ⟨false, some (joinStrings " | " acc), some acc⟩
  | none :: rest, acc => runChecks collectAll rest acc
  | some m :: rest, acc =>
    if collectAll then runChecks collectAll rest (acc ++ [m])
    else ⟨false, some m, none⟩

/-- `validateRow`. -/
def validateRow (cfg : SDKConfig) (row : Row) : ValidationResult :=
  runChecks cfg.collectAllErrors (allChecks cfg row) []

/-- `fieldMapping[key] || key` (an empty-string mapping is falsy). -/
def mappedKeyOf (cfg : SDKConfig) (key : String) : String :=
  strOr (jsGet cfg.mapping.fieldMapping key) key

/-- The field-plugin transform chain over one value: each hook's
returned value replaces the working value; a thrown fault keeps the
pre-fault value. -/
def applyFieldPluginTransforms (plugins : List FieldPlugin) (mappedKey : String)
    (row : Row) (v : Value) : Value :=
  plugins.foldl (fun value p =>
    match p.transform with
    | none => value
    | some t =>
      match t value mappedKey row with
      | .ret v' => v'
      | .throws _ => value) v

/-- The fully transformed value of one source field: mapping-level
transformer for the mapped key (if any), then the field plugins. -/
def transformedValueOf (cfg : SDKConfig) (row : Row) (key : String) (value : Value) : Value :=
  let mappedKey := mappedKeyOf cfg key
  let v1 :=
    match jsGet cfg.mapping.transformers mappedKey with
    | some f => f value
    | none => value
  applyFieldPluginTransforms cfg.fieldPlugins mappedKey row v1

/-- One row-plugin transform application inside `transformRow`:
`finalTransformed = plugin.transform(...) || finalTransformed` in a
try/catch — a falsy return keeps the previous record, a thrown fault
is skipped. -/
def rowPluginTransformStep (row : Row) (fin : Row) (p : RowPlugin) : Row :=
  match p.transform with
  | none => fin
  | some t =>
    match t fin row with
    | .throws _ => fin
    | .ret none => fin
    | .ret (some r) => r

/-- `transformRow`: for each source field in enumeration order,
compute the mapped key and transformed value and assign
`transformed[mappedKey] = value` (later assignments overwrite
earlier ones); then the row plugins' transform hooks run in
registration order. -/
def transformRow (cfg : SDKConfig) (row : Row) : Row :=
  let transformed := row.foldl (fun acc kv =>
    jsSet acc (mappedKeyOf cfg kv.1) (transformedValueOf cfg row kv.1 kv.2)) []
  cfg.rowPlugins.foldl (rowPluginTransformStep row) transformed

theorem runChecks_true_isValid (checks : List (Option String)) (acc : List String) :
    (runChecks true checks acc).isValid =
      (acc.isEmpty && checks.all (fun c => c.isNone)) := by
  induction checks generalizing acc with
  | nil =>
    by_cases h : acc.isEmpty <;> simp [runChecks, h]
  | cons c rest ih =>
    cases c with
    | none => simp [runChecks, ih]
    | some m =>
      simp only [runChecks, ite_true]
      rw [ih]
      simp

theorem runChecks_false_isValid (checks : List (Option String)) :
    (runChecks false checks []).isValid = checks.all (fun c => c.isNone) := by
  induction checks with
  | nil => simp [runChecks]
  | cons c rest ih =>
    cases c with
    | none => simp [runChecks, ih]
    | some m => simp [runChecks]

/-- C9: the stop-at-first policy (`collectAllErrors` false) and the
collect-all policy (`collectAllErrors` true) return the same
`isValid` verdict for every record and every validator/plugin
configuration (in particular for configurations where at most one
rule fails); they can differ only in the message content. -/
theorem C9_policies_same_verdict (cfg : SDKConfig) (row : Row) :
    (validateRow { cfg with collectAllErrors := true } row).isValid =
    (validateRow { cfg with collectAllErrors := false } row).isValid := by
  have hchecks : ∀ b : Bool,
      allChecks { cfg with collectAllErrors := b } row = allChecks cfg row := by
    intro b
    rfl
  simp only [validateRow, hchecks]
  rw [runChecks_true_isValid, runChecks_false_isValid]
  simp

/-- Substring test: `pat` occurs contiguously in `s`. -/
def strContainsSub (s pat : String) : Bool :=
  (List.range (s.length + 1)).any
    (fun i => (s.data.drop i).take pat.length == pat.data)

/-- The collect-all scenario of C3: a global function validator that
returns `{isValid: false, errors: ["Error 1", "Error 2"]}`. -/
def c3Validator : GlobalValidator :=
  .vfun (fun _ => .ret (.objR false none (some ["Error 1", "Error 2"])))

/-- Configuration of the C3 scenario: `collectAllErrors: true`, the
validator above as the active mapping's validator, no plugins. -/
def c3Config : SDKConfig :=
  ⟨[], true, none, [], [], ⟨[], [], some c3Validator⟩, [], []⟩

/-- C3: evaluating `validateRow` on the repository's own collect-all
test scenario (a global function validator returning
`{isValid:false, errors:["Error 1","Error 2"]}` with
`collectAllErrors:true`).  The function-validator branch reads only
`result.error` and never the `errors` list, so the collected message
is the fallback `"Validation failed"` and the result contains
neither `"Error 1"` nor `"Error 2"` — the code fails its own test
(`collect-errors-test.js`, Test 1) and the spec sentence it
documents. -/
theorem C3_code_evaluation :
    validateRow c3Config [("field1", "invalid"), ("field2", "invalid")] =
      ⟨false, some "Validation failed", some ["Validation failed"]⟩ ∧
    strContainsSub "Validation failed" "Error 1" = false ∧
    strContainsSub "Validation failed" "Error 2" = false := by
  refine ⟨by decide, by decide, by decide⟩

/-! ## Session counting (`startImport` / `processRows` /
`handleBatchResult`) and the batch dispatcher (`sendBatch`)

The per-session counters, line cursor and record buffer; the per-row
step of `processRows` with the transform/validate collaborators
injected at the call site (the source calls its own methods there);
the column-contract check of the first parsed chunk; and the
dispatcher's result coercion.  The rows-export lists
(`successRows`/`errorRows`/`filteredRows`) and telemetry calls do not
affect the counters and are not modelled; sink success counts are
modelled as naturals. -/

/-- Session mode. -/
inductive Mode where
  | check
  | imp
deriving DecidableEq, Repr

/-- The classification `processRows` assigns to one record: counted
success (check mode), buffered for dispatch (import mode), filtered
with the veto reason, or client-invalid with the validation error. -/
inductive Classification where
  | success
  | buffered
  | filtered (reason : String)
  | clientInvalid (error : String)
deriving DecidableEq, Repr

/-- A buffered record: the transformed row with its `_csvLineNumber`. -/
abbrev BatchRow := Row × Nat

/-- The session-owned counters, line cursor and record buffer
(reset by `startImport`). -/
structure SessionState where
  successCount : Nat
  errorCount : Nat
  totalCount : Nat
  filteredCount : Nat
  currentCsvLine : Nat
  rowBuffer : List BatchRow
deriving DecidableEq, Repr

/-- `startImport` resets all counters and sets the line cursor to 2
(the header occupies line 1). -/
def initialSessionState : SessionState := ⟨0, 0, 0, 0, 2, []⟩

/-- One iteration of the `processRows` loop: take the line number and
advance the cursor (before any other step), filter, and — only for
records that pass — transform, validate, and classify; in import mode
a valid record is appended to the buffer instead of being counted. -/
def processRecord (cfg : SDKConfig) (transform : Row → Row)
    (validate : Row → ValidationResult) (mode : Mode) (st : SessionState) (row : Row) :
    SessionState × (Nat × Classification) :=
  let csvLineNumber := st.currentCsvLine
  let st1 := { st with currentCsvLine := st.currentCsvLine + 1 }
  let filterResult := filterRow cfg row
  if filterResult.passed = false then
    ({ st1 with filteredCount := st1.filteredCount + 1 },
      (csvLineNumber, .filtered (filterResult.reason.getD "")))
  else
    let transformed := transform row
    let validation := validate transformed
    if validation.isValid then
      match mode with
      | .imp =>
        ({ st1 with rowBuffer := st1.rowBuffer ++ [(transformed, csvLineNumber)] },
          (csvLineNumber, .buffered))
      | .check =>
        ({ st1 with successCount := st1.successCount + 1, totalCount := st1.totalCount + 1 },
          (csvLineNumber, .success))
    else
      ({ st1 with errorCount := st1.errorCount + 1, totalCount := st1.totalCount + 1 },
        (csvLineNumber, .clientInvalid (validation.error.getD "")))

/-- The classification loop of `processRows` over one delivered chunk,
also returning the per-record trace of line numbers and
classifications. -/
def processRowsChunk (cfg : SDKConfig) (transform : Row → Row)
    (validate : Row → ValidationResult) (mode : Mode) :
    SessionState → List Row → SessionState × List (Nat × Classification)
  | st, [] => (st, [])
  | st, row :: rest =>
    let step := processRecord cfg transform validate mode st row
    let tail := processRowsChunk cfg transform validate mode step.1 rest
    (tail.1, step.2 :: tail.2)

/-- The column-contract check of the first parsed chunk: one
`errorCount` increment when required columns are missing, one more
when unknown columns are present — with no record and no
`totalCount` increment. -/
def checkColumns (cfg : SDKConfig) (fileColumns : List String) (st : SessionState) :
    SessionState :=
  let st1 :=
    if cfg.requiredColumns ≠ [] ∧
       (cfg.requiredColumns.filter (fun col => !(fileColumns.contains col))) ≠ [] then
      { st with errorCount := st.errorCount + 1 }
    else st
  if cfg.allowedColumns ≠ [] ∧
     (fileColumns.filter (fun col => !(cfg.allowedColumns.contains col))) ≠ [] then
    { st1 with errorCount := st1.errorCount + 1 }
  else st1

/-- The number of column-contract fault events for a file's header. -/
def columnFaultCount (cfg : SDKConfig) (fileColumns : List String) : Nat :=
  (if cfg.requiredColumns ≠ [] ∧
      (cfg.requiredColumns.filter (fun col => !(fileColumns.contains col))) ≠ [] then 1 else 0) +
  (if cfg.allowedColumns ≠ [] ∧
      (fileColumns.filter (fun col => !(cfg.allowedColumns.contains col))) ≠ [] then 1 else 0)

/-- A coerced Batch Result `{ success, errors }`. -/
structure BatchResult where
  success : Nat
  errors : List BatchError
deriving DecidableEq, Repr

/-- `handleBatchResult`: counters advance by exactly what the result
reports (`success`, `errors.length` and their sum) — not by the batch
length. -/
def handleBatchResult (st : SessionState) (result : BatchResult) : SessionState :=
  { st with
    successCount := st.successCount + result.success,
    errorCount := st.errorCount + result.errors.length,
    totalCount := st.totalCount + (result.success + result.errors.length) }

/-- A complete check-mode session over one file: reset, column check
on the header, then classification of every delivered record. -/
def runCheckSession (cfg : SDKConfig) (fileColumns : List String) (rows : List Row) :
    SessionState × List (Nat × Classification) :=
  processRowsChunk cfg (transformRow cfg) (validateRow cfg) .check
    (checkColumns cfg fileColumns initialSessionState) rows

/-- The counter outcome of a complete import-mode session: reset,
column check, classification (valid records buffered), then every
batch result reconciled through `handleBatchResult` (the counters are
insensitive to how the buffer was split into batches and to dispatch
interleaving, so the results are folded at the end). -/
def runImportSession (cfg : SDKConfig) (fileColumns : List String) (rows : List Row)
    (results : List BatchResult) : SessionState :=
  results.foldl handleBatchResult
    (processRowsChunk cfg (transformRow cfg) (validateRow cfg) .imp
      (checkColumns cfg fileColumns initialSessionState) rows).1

/-- What one sink invocation does: throw, return a falsy/non-object
value, or return an object whose `success` field may fail the
number test and whose `errors` field may fail the array test. -/
inductive SinkOutcome where
  | throws (msg : String)
  | nonObject
  | obj (success : Option Nat) (errors : Option (List BatchError))
deriving Repr

/-- A batch-capability plugin: optional `beforeSend` (may rewrite the
batch) and `afterSend` (may rewrite the result); a falsy return or a
thrown fault keeps the previous value. -/
structure BatchPlugin where
  name : String
  beforeSend : Option (List BatchRow → JsCall (Option (List BatchRow)))
  afterSend : Option (BatchResult → List BatchRow → JsCall (Option (BatchResult)))

/-- `sendBatch`: run the `beforeSend` hooks, invoke the sink exactly
once (the head of the outcome stream; the tail is returned untouched
— no retry), replace a thrown fault by `success 0` plus one synthetic
error per record of the (original) batch, coerce a malformed result
field-wise (`success` not a number → 0, `errors` not an array → `[]`,
a non-object result → both defaults with no synthetic errors), then
run the `afterSend` hooks.  `t` is the translation collaborator
(`this.t`). -/
def sendBatch (t : String → String → String) (batchPlugins : List BatchPlugin)
    (batch : List BatchRow) (sinkOutcomes : List SinkOutcome) :
    BatchResult × List SinkOutcome :=
  let processedBatch := batchPlugins.foldl (fun b p =>
    match p.beforeSend with
    | none => b
    | some h =>
      match h b with
      | .throws _ => b
      | .ret none => b
      | .ret (some b') => b') batch
  let outcome := sinkOutcomes.headD .nonObject
  let rest := sinkOutcomes.tail
  let result0 : BatchResult :=
    match outcome with
    | .throws m => ⟨0, batch.map (fun _ => ⟨t "handlerError" m, none⟩)⟩
    | .nonObject => ⟨0, []⟩
    | .obj s e => ⟨s.getD 0, e.getD []⟩
  let result := batchPlugins.foldl (fun r p =>
    match p.afterSend with
    | none => r
    | some h =>
      match h r processedBatch with
      | .throws _ => r
      | .ret none => r
      | .ret (some r') => r') result0
  (result, rest)

theorem jsGet_jsSet_self {α : Type} (m : List (String × α)) (k : String) (v : α) :
    jsGet (jsSet m k v) k = some v := by
  induction m with
  | nil => simp [jsSet, jsGet]
  | cons p rest ih =>
    by_cases hpk : p.1 = k
    · simp [jsSet, jsGet, hpk]
    · simp [jsSet, jsGet, hpk, ih]

theorem jsGet_jsSet_ne {α : Type} (m : List (String × α)) (k k' : String) (v : α)
    (h : ¬ (k = k')) :
    jsGet (jsSet m k v) k' = jsGet m k' := by
  induction m with
  | nil =>
    simp only [jsSet, jsGet]
    rw [if_neg h]
  | cons p rest ih =>
    by_cases hpk : p.1 = k
    · simp only [jsSet, hpk, if_true, jsGet]
      rw [if_neg h, if_neg (hpk ▸ h)]
    · simp [jsSet, jsGet, hpk, ih]

/-- The destination-key view of the field-mapping fold of
`transformRow`: the value stored under a destination key is the
transformed value of the last source field (in enumeration order)
that maps to it. -/
theorem transform_fold_get (cfg : SDKConfig) (row : Row) (dest : String)
    (l : List (String × Value)) :
    jsGet (l.foldl (fun acc kv =>
        jsSet acc (mappedKeyOf cfg kv.1) (transformedValueOf cfg row kv.1 kv.2)) []) dest =
    ((l.filter (fun kv => mappedKeyOf cfg kv.1 = dest)).getLast?).map
      (fun kv => transformedValueOf cfg row kv.1 kv.2) := by
  induction l using List.reverseRecOn with
  | nil => simp [jsGet]
  | append_singleton l x ih =>
    rw [List.foldl_append, List.filter_append]
    simp only [List.foldl_cons, List.foldl_nil]
    by_cases hx : mappedKeyOf cfg x.1 = dest
    · rw [hx, jsGet_jsSet_self]
      have hfx : List.filter (fun kv => decide (mappedKeyOf cfg kv.1 = dest)) [x] = [x] := by
        simp [hx]
      rw [hfx, List.getLast?_concat]
      simp
    · rw [jsGet_jsSet_ne _ _ _ _ hx]
      have hfx : List.filter (fun kv => decide (mappedKeyOf cfg kv.1 = dest)) [x] = [] := by
        simp [hx]
      rw [hfx, List.append_nil]
      exact ih

/-- C10: when no row-level transform plugin is registered, a field
mapping that sends several distinct source fields to one destination
raises no error: the transformed record holds, under the destination
key, the transformed value of the source field enumerated LAST in
the record, and the earlier colliding fields' values are silently
dropped (the general form: the destination key's value is the
transformed value of the last source field mapping to it, absent
when no field maps to it). -/
theorem C10_transform_last_wins (cfg : SDKConfig) (row : Row) (dest : String)
    (hp : ∀ p ∈ cfg.rowPlugins, p.transform = none) :
    jsGet (transformRow cfg row) dest =
      ((row.filter (fun kv => mappedKeyOf cfg kv.1 = dest)).getLast?).map
        (fun kv => transformedValueOf cfg row kv.1 kv.2) := by
  have hplug : ∀ (plugins : List RowPlugin), (∀ p ∈ plugins, p.transform = none) →
      ∀ fin : Row, plugins.foldl (rowPluginTransformStep row) fin = fin := by
    intro plugins
    induction plugins with
    | nil => intro _ fin; rfl
    | cons p rest ih =>
      intro hall fin
      have hpn : p.transform = none := hall p (by simp)
      simp only [List.foldl_cons, rowPluginTransformStep, hpn]
      exact ih (fun q hq => hall q (by simp [hq])) fin
  unfold transformRow
  rw [hplug cfg.rowPlugins hp]
  exact transform_fold_get cfg row dest row

/-- C10 witness: mapping `{a → x, b → x}` on the record
`[("a","1"), ("b","2")]` with no plugins yields `x = "2"` — the
later source field wins and `"1"` is dropped. -/
theorem C10_transform_last_wins_witness :
    (∀ p ∈ (⟨[], false, none, [], [], ⟨[("a", "x"), ("b", "x")], [], none⟩, [], []⟩ :
        SDKConfig).rowPlugins, p.transform = none) ∧
    jsGet (transformRow
      ⟨[], false, none, [], [], ⟨[("a", "x"), ("b", "x")], [], none⟩, [], []⟩
      [("a", "1"), ("b", "2")]) "x" = some "2" :=
  ⟨by simp, by
    rw [C10_transform_last_wins
      ⟨[], false, none, [], [], ⟨[("a", "x"), ("b", "x")], [], none⟩, [], []⟩
      [("a", "1"), ("b", "2")] "x" (by simp)]
    decide⟩

theorem processRecord_line (cfg : SDKConfig) (t : Row → Row) (v : Row → ValidationResult)
    (mode : Mode) (st : SessionState) (row : Row) :
    (processRecord cfg t v mode st row).2.1 = st.currentCsvLine ∧
    (processRecord cfg t v mode st row).1.currentCsvLine = st.currentCsvLine + 1 := by
  unfold processRecord
  by_cases hf : (filterRow cfg row).passed = false
  · simp [hf]
  · by_cases hv : (v (t row)).isValid
    · cases mode <;> simp [hf, hv]
    · simp [hf, hv]

theorem processRecord_counts (cfg : SDKConfig) (t : Row → Row) (v : Row → ValidationResult)
    (mode : Mode) (st : SessionState) (row : Row) :
    (processRecord cfg t v mode st row).1.successCount +
    (processRecord cfg t v mode st row).1.filteredCount +
    (processRecord cfg t v mode st row).1.errorCount +
    (processRecord cfg t v mode st row).1.rowBuffer.length =
      st.successCount + st.filteredCount + st.errorCount + st.rowBuffer.length + 1 := by
  unfold processRecord
  by_cases hf : (filterRow cfg row).passed = false
  · simp [hf]
    omega
  · by_cases hv : (v (t row)).isValid
    · cases mode <;> simp [hf, hv] <;> omega
    · simp [hf, hv]
      omega

theorem processRecord_check_buffer (cfg : SDKConfig) (t : Row → Row)
    (v : Row → ValidationResult) (st : SessionState) (row : Row) :
    (processRecord cfg t v .check st row).1.rowBuffer = st.rowBuffer := by
  unfold processRecord
  by_cases hf : (filterRow cfg row).passed = false
  · simp [hf]
  · by_cases hv : (v (t row)).isValid <;> simp [hf, hv]

theorem processRowsChunk_lines (cfg : SDKConfig) (t : Row → Row) (v : Row → ValidationResult)
    (mode : Mode) :
    ∀ (rows : List Row) (st : SessionState),
      (processRowsChunk cfg t v mode st rows).2.map Prod.fst =
        (List.range rows.length).map (fun i => st.currentCsvLine + i) := by
  intro rows
  induction rows with
  | nil => intro st; simp [processRowsChunk]
  | cons r rest ih =>
    intro st
    obtain ⟨hl, hc⟩ := processRecord_line cfg t v mode st r
    simp only [processRowsChunk, List.map_cons, List.length_cons]
    rw [hl, ih, hc, List.range_succ_eq_map, List.map_cons, List.map_map]
    simp only [Nat.add_zero]
    congr 1
    apply List.map_congr_left
    intro i _
    simp only [Function.comp_apply]
    omega

theorem processRowsChunk_length (cfg : SDKConfig) (t : Row → Row) (v : Row → ValidationResult)
    (mode : Mode) :
    ∀ (rows : List Row) (st : SessionState),
      (processRowsChunk cfg t v mode st rows).2.length = rows.length := by
  intro rows
  induction rows with
  | nil => intro st; simp [processRowsChunk]
  | cons r rest ih =>
    intro st
    simp only [processRowsChunk, List.length_cons, ih]

theorem processRowsChunk_counts (cfg : SDKConfig) (t : Row → Row) (v : Row → ValidationResult)
    (mode : Mode) :
    ∀ (rows : List Row) (st : SessionState),
      (processRowsChunk cfg t v mode st rows).1.successCount +
      (processRowsChunk cfg t v mode st rows).1.filteredCount +
      (processRowsChunk cfg t v mode st rows).1.errorCount +
      (processRowsChunk cfg t v mode st rows).1.rowBuffer.length =
        st.successCount + st.filteredCount + st.errorCount + st.rowBuffer.length +
          rows.length := by
  intro rows
  induction rows with
  | nil => intro st; simp [processRowsChunk]
  | cons r rest ih =>
    intro st
    have hstep := processRecord_counts cfg t v mode st r
    have hrest := ih (processRecord cfg t v mode st r).1
    simp only [processRowsChunk, List.length_cons]
    omega

theorem processRowsChunk_check_buffer (cfg : SDKConfig) (t : Row → Row)
    (v : Row → ValidationResult) :
    ∀ (rows : List Row) (st : SessionState),
      (processRowsChunk cfg t v .check st rows).1.rowBuffer = st.rowBuffer := by
  intro rows
  induction rows with
  | nil => intro st; simp [processRowsChunk]
  | cons r rest ih =>
    intro st
    simp only [processRowsChunk]
    rw [ih, processRecord_check_buffer]

theorem checkColumns_spec (cfg : SDKConfig) (cols : List String) (st : SessionState) :
    checkColumns cfg cols st =
      { st with errorCount := st.errorCount + columnFaultCount cfg cols } := by
  unfold checkColumns columnFaultCount
  cases st
  split_ifs <;> simp

theorem foldl_handleBatchResult_counts :
    ∀ (rs : List BatchResult) (st : SessionState),
      ((rs.foldl handleBatchResult st).successCount +
       (rs.foldl handleBatchResult st).filteredCount +
       (rs.foldl handleBatchResult st).errorCount =
        st.successCount + st.filteredCount + st.errorCount +
          (rs.map (fun r => r.success + r.errors.length)).sum) ∧
      (rs.foldl handleBatchResult st).rowBuffer = st.rowBuffer := by
  intro rs
  induction rs with
  | nil => intro st; simp
  | cons r rest ih =>
    intro st
    obtain ⟨h1, h2⟩ := ih (handleBatchResult st r)
    simp only [List.foldl_cons, List.map_cons, List.sum_cons]
    refine ⟨?_, ?_⟩
    · rw [h1]
      simp [handleBatchResult]
      omega
    · rw [h2]
      rfl

/-- C7: every delivered record is assigned its line number once,
before filtering and validation; the k-th record delivered to the
pipeline (1-indexed) gets exactly line k+1 — the trace of assigned
lines is `start, start+1, start+2, …` with no skip or reuse
regardless of classification outcome, and a session starts at line 2
(the header is line 1), in check and in import mode alike. -/
theorem C7_line_numbers :
    (∀ (cfg : SDKConfig) (t : Row → Row) (v : Row → ValidationResult) (mode : Mode)
        (st : SessionState) (rows : List Row),
      (processRowsChunk cfg t v mode st rows).2.map Prod.fst =
        (List.range rows.length).map (fun i => st.currentCsvLine + i)) ∧
    (∀ (cfg : SDKConfig) (fileColumns : List String) (rows : List Row),
      (runCheckSession cfg fileColumns rows).2.map Prod.fst =
        (List.range rows.length).map (fun i => i + 2)) ∧
    (∀ (cfg : SDKConfig) (fileColumns : List String) (rows : List Row),
      (processRowsChunk cfg (transformRow cfg) (validateRow cfg) .imp
        (checkColumns cfg fileColumns initialSessionState) rows).2.map Prod.fst =
        (List.range rows.length).map (fun i => i + 2)) := by
  have hline : ∀ (cfg : SDKConfig) (cols : List String),
      (checkColumns cfg cols initialSessionState).currentCsvLine = 2 := by
    intro cfg cols
    rw [checkColumns_spec]
    rfl
  refine ⟨fun cfg t v mode st rows => processRowsChunk_lines cfg t v mode rows st,
    ?_, ?_⟩
  · intro cfg fileColumns rows
    unfold runCheckSession
    rw [processRowsChunk_lines _ _ _ _ rows _, hline]
    apply List.map_congr_left
    intro i _
    omega
  · intro cfg fileColumns rows
    rw [processRowsChunk_lines _ _ _ _ rows _, hline]
    apply List.map_congr_left
    intro i _
    omega

/-- C1 counterexample: a check-mode session over a file missing a
required column (`requiredColumns = ["email"]`, header
`name, phone`) with one valid record classifies exactly one record,
yet `successCount + filteredCount + errorCount = 2` — the
column-contract fault increments `errorCount` without any record
behind it, so the counters do NOT sum to the number of records
classified. -/
theorem C1_counterexample :
    ((runCheckSession ⟨[], false, none, ["email"], [], ⟨[], [], none⟩, [], []⟩
        ["name", "phone"] [[("name", "John"), ("phone", "1")]]).1.successCount +
      (runCheckSession ⟨[], false, none, ["email"], [], ⟨[], [], none⟩, [], []⟩
        ["name", "phone"] [[("name", "John"), ("phone", "1")]]).1.filteredCount +
      (runCheckSession ⟨[], false, none, ["email"], [], ⟨[], [], none⟩, [], []⟩
        ["name", "phone"] [[("name", "John"), ("phone", "1")]]).1.errorCount = 2) ∧
    ((runCheckSession ⟨[], false, none, ["email"], [], ⟨[], [], none⟩, [], []⟩
        ["name", "phone"] [[("name", "John"), ("phone", "1")]]).2.length = 1) ∧
    (2 : Nat) ≠ 1 := by
  refine ⟨by decide, by decide, by decide⟩

/-- C1 (amended): for a completed check-mode session,
`successCount + filteredCount + errorCount` equals the number of
records classified PLUS the number of column-contract fault events
(each file-level fault adds one to `errorCount` with no record
behind it); the trace classifies each delivered record exactly once.
For a completed import-mode session the same identity holds provided
the sink's batch results jointly account for every buffered record
exactly once (`Σ (success + |errors|) = buffer length`) — the
dispatcher itself never enforces that contract. -/
theorem C1_counter_sum (cfg : SDKConfig) (fileColumns : List String) (rows : List Row) :
    ((runCheckSession cfg fileColumns rows).1.successCount +
     (runCheckSession cfg fileColumns rows).1.filteredCount +
     (runCheckSession cfg fileColumns rows).1.errorCount =
       rows.length + columnFaultCount cfg fileColumns) ∧
    ((runCheckSession cfg fileColumns rows).2.length = rows.length) ∧
    (∀ results : List BatchResult,
      (results.map (fun r => r.success + r.errors.length)).sum =
        (processRowsChunk cfg (transformRow cfg) (validateRow cfg) .imp
          (checkColumns cfg fileColumns initialSessionState) rows).1.rowBuffer.length →
      (runImportSession cfg fileColumns rows results).successCount +
      (runImportSession cfg fileColumns rows results).filteredCount +
      (runImportSession cfg fileColumns rows results).errorCount =
        rows.length + columnFaultCount cfg fileColumns) := by
  have hcc := checkColumns_spec cfg fileColumns initialSessionState
  refine ⟨?_, ?_, ?_⟩
  · have hc := processRowsChunk_counts cfg (transformRow cfg) (validateRow cfg) .check
      rows (checkColumns cfg fileColumns initialSessionState)
    have hb := processRowsChunk_check_buffer cfg (transformRow cfg) (validateRow cfg)
      rows (checkColumns cfg fileColumns initialSessionState)
    unfold runCheckSession
    rw [hcc] at hc hb ⊢
    simp only [initialSessionState] at hc hb ⊢
    simp only [hb] at hc
    simp only [List.length_nil] at hc
    omega
  · exact processRowsChunk_length cfg (transformRow cfg) (validateRow cfg) .check rows _
  · intro results hsum
    unfold runImportSession
    rw [hcc] at hsum ⊢
    obtain ⟨hfold, _⟩ := foldl_handleBatchResult_counts results
      (processRowsChunk cfg (transformRow cfg) (validateRow cfg) .imp
        { initialSessionState with
            errorCount := initialSessionState.errorCount + columnFaultCount cfg fileColumns }
        rows).1
    have hc := processRowsChunk_counts cfg (transformRow cfg) (validateRow cfg) .imp
      rows
      { initialSessionState with
          errorCount := initialSessionState.errorCount + columnFaultCount cfg fileColumns }
    simp only [initialSessionState, List.length_nil] at hc hfold hsum ⊢
    omega

/-- C1 witness: the import-mode conjunct applied to a one-record
session whose single batch result accounts for that record. -/
theorem C1_counter_sum_witness :
    (([BatchResult.mk 1 []].map (fun r => r.success + r.errors.length)).sum =
      (processRowsChunk ⟨[], false, none, [], [], ⟨[], [], none⟩, [], []⟩
        (transformRow ⟨[], false, none, [], [], ⟨[], [], none⟩, [], []⟩)
        (validateRow ⟨[], false, none, [], [], ⟨[], [], none⟩, [], []⟩) .imp
        (checkColumns ⟨[], false, none, [], [], ⟨[], [], none⟩, [], []⟩ []
          initialSessionState) [[("a", "1")]]).1.rowBuffer.length) ∧
    ((runImportSession ⟨[], false, none, [], [], ⟨[], [], none⟩, [], []⟩ [] [[("a", "1")]]
        [BatchResult.mk 1 []]).successCount +
     (runImportSession ⟨[], false, none, [], [], ⟨[], [], none⟩, [], []⟩ [] [[("a", "1")]]
        [BatchResult.mk 1 []]).filteredCount +
     (runImportSession ⟨[], false, none, [], [], ⟨[], [], none⟩, [], []⟩ [] [[("a", "1")]]
        [BatchResult.mk 1 []]).errorCount =
       ([[("a", "1")]] : List Row).length +
         columnFaultCount ⟨[], false, none, [], [], ⟨[], [], none⟩, [], []⟩ []) :=
  ⟨by decide,
    (C1_counter_sum ⟨[], false, none, [], [], ⟨[], [], none⟩, [], []⟩ [] [[("a", "1")]]).2.2
      [BatchResult.mk 1 []] (by decide)⟩

/-- C8: a thrown fault from any row plugin's filter hook vetoes the
record (fail-closed) — and a record vetoed at the filter stage is
classified `filtered` with the veto reason, contributes exactly one
to `filteredCount` and nothing to the other counters or the buffer,
and is never passed to the transform or validation steps (the
outcome is identical for arbitrary transform/validate
collaborators). -/
theorem C8_filter_fault_fail_closed :
    (∀ (name m : String),
      pluginFilterVeto name (JsCall.throws m) =
        some ⟨false, some ("Plugin filter error: " ++ m)⟩) ∧
    (∀ (cfg : SDKConfig) (row : Row),
      (∃ p ∈ cfg.rowPlugins, ∃ f, p.filter = some f ∧ ∃ m, f row = JsCall.throws m) →
      (filterRow cfg row).passed = false) ∧
    (∀ (cfg : SDKConfig) (t₁ t₂ : Row → Row) (v₁ v₂ : Row → ValidationResult)
        (mode : Mode) (st : SessionState) (row : Row),
      (filterRow cfg row).passed = false →
      (processRecord cfg t₁ v₁ mode st row = processRecord cfg t₂ v₂ mode st row) ∧
      (processRecord cfg t₁ v₁ mode st row).1 =
        { st with currentCsvLine := st.currentCsvLine + 1,
                  filteredCount := st.filteredCount + 1 } ∧
      (processRecord cfg t₁ v₁ mode st row).2.2 =
        Classification.filtered ((filterRow cfg row).reason.getD "")) := by
  have hbuiltin : ∀ (filters : List (String × (Option Value → Bool))) (row : Row) (veto),
      builtinFilterVeto filters row = some veto → veto.passed = false := by
    intro filters row veto h
    obtain ⟨fp, _, hfp⟩ := List.exists_of_findSome?_eq_some h
    by_cases hp : fp.2 (jsGet row fp.1)
    · simp [hp] at hfp
    · simp [hp] at hfp
      rw [← hfp]
  have hplugin : ∀ (name : String) (res : JsCall FilterRes) (veto),
      pluginFilterVeto name res = some veto → veto.passed = false := by
    intro name res veto h
    cases res with
    | throws m =>
      simp [pluginFilterVeto] at h
      rw [← h]
    | ret r =>
      cases r with
      | objR passed reason =>
        by_cases hp : passed = false
        · simp [pluginFilterVeto, hp] at h
          rw [← h]
        · simp [pluginFilterVeto, hp] at h
      | boolR b =>
        simp [pluginFilterVeto] at h
        rw [← h]
      | nullR => simp [pluginFilterVeto] at h
  refine ⟨fun _ _ => rfl, ?_, ?_⟩
  · rintro cfg row ⟨p, hpmem, f, hf, m, hm⟩
    unfold filterRow
    cases hb : builtinFilterVeto cfg.filters row with
    | some veto => simpa using hbuiltin cfg.filters row veto hb
    | none =>
      cases hps : cfg.rowPlugins.findSome? (fun p =>
          p.filter.bind (fun f => pluginFilterVeto p.name (f row))) with
      | some veto =>
        obtain ⟨q, _, hq⟩ := List.exists_of_findSome?_eq_some hps
        cases hqf : q.filter with
        | none => simp [hqf] at hq
        | some g =>
          simp only [hqf, Option.bind_some] at hq
          simpa using hplugin q.name (g row) veto hq
      | none =>
        exfalso
        have := List.findSome?_eq_none_iff.mp hps p hpmem
        rw [hf] at this
        simp [hm, pluginFilterVeto] at this
  · intro cfg t₁ t₂ v₁ v₂ mode st row hveto
    unfold processRecord
    simp [hveto]

/-- C8 witness: a single row plugin whose filter hook throws
`"boom"`; the record is vetoed and classified filtered, counting
only into `filteredCount`. -/
theorem C8_filter_fault_witness :
    ((filterRow ⟨[], false, none, [], [], ⟨[], [], none⟩, [],
        [⟨"p1", some (fun _ => JsCall.throws "boom"), none, none⟩]⟩ [("a", "1")]).passed
      = false) ∧
    ((processRecord ⟨[], false, none, [], [], ⟨[], [], none⟩, [],
        [⟨"p1", some (fun _ => JsCall.throws "boom"), none, none⟩]⟩
        id (fun _ => ⟨true, none, none⟩) Mode.check initialSessionState [("a", "1")]).1 =
      { initialSessionState with
          currentCsvLine := initialSessionState.currentCsvLine + 1,
          filteredCount := initialSessionState.filteredCount + 1 }) := by
  have hex : ∃ p ∈ (⟨[], false, none, [], [], ⟨[], [], none⟩, [],
      [⟨"p1", some (fun _ => JsCall.throws "boom"), none, none⟩]⟩ : SDKConfig).rowPlugins,
      ∃ f, p.filter = some f ∧ ∃ m, f [("a", "1")] = JsCall.throws m :=
    ⟨⟨"p1", some (fun _ => JsCall.throws "boom"), none, none⟩, by simp,
      fun _ => JsCall.throws "boom", rfl, "boom", rfl⟩
  have h1 := C8_filter_fault_fail_closed.2.1 _ _ hex
  exact ⟨h1,
    (C8_filter_fault_fail_closed.2.2 _ id id (fun _ => ⟨true, none, none⟩)
      (fun _ => ⟨true, none, none⟩) Mode.check initialSessionState [("a", "1")] h1).2.1⟩

/-- C6 counterexample: a malformed sink result (`success` not a
number, `errors` a valid empty list) on a one-record batch is
coerced field-wise to `{success: 0, errors: []}` — NOT to the safe
default of one synthetic error per record (which would have one
entry). -/
theorem C6_counterexample :
    (sendBatch (fun _ m => m) [] [([("a", "1")], 2)]
        [SinkOutcome.obj none (some [])]).1 = ⟨0, []⟩ ∧
    ((⟨0, []⟩ : BatchResult).errors.length = 0 ∧
      ([([("a", "1")], 2)] : List BatchRow).length = 1) ∧
    (0 : Nat) ≠ 1 := by
  refine ⟨by decide, by decide, by decide⟩

/-- C6 (amended): with no batch plugins, a thrown sink fault is
replaced by the safe default `success 0` plus one synthetic error
per record of the batch; a returned non-object is replaced by
`success 0` with an EMPTY error list; a returned object with a
malformed field has that field coerced in place (`success` not a
number → 0, `errors` not a list → `[]`) with no synthetic errors —
and in every case exactly one sink outcome is consumed: the
dispatcher performs no retry. -/
theorem C6_dispatch_failure_handling (t : String → String → String)
    (batch : List BatchRow) (rest : List SinkOutcome) (m : String)
    (s : Option Nat) (e : Option (List BatchError)) :
    sendBatch t [] batch (SinkOutcome.throws m :: rest) =
      (⟨0, batch.map (fun _ => ⟨t "handlerError" m, none⟩)⟩, rest) ∧
    sendBatch t [] batch (SinkOutcome.nonObject :: rest) = (⟨0, []⟩, rest) ∧
    sendBatch t [] batch (SinkOutcome.obj s e :: rest) = (⟨s.getD 0, e.getD []⟩, rest) := by
  refine ⟨rfl, rfl, rfl⟩

end ImportSDK
